import Mathlib

set_option maxHeartbeats 1000000

/-!
Shallow embedding of the `nestjs-otel-observability` instrumentation layer.

JavaScript strings are modelled as lists of characters, JSON-like runtime
values as a mutual inductive (`JsVal`/`JsArr`/`JsObj`), fallible code as
`Except`/`Option`, and module-level mutable state as explicit state passing.
Each definition is translated from the corresponding TypeScript source
function and keeps its name where Lean allows it.
-/

/-- JavaScript strings, modelled as lists of characters. -/
abbrev Str := List Char

/-- JS `String.prototype.toLowerCase` (character-wise lowering). -/
def lowerStr (s : Str) : Str := s.map Char.toLower

/-- Does `h` start with `n`? (helper for the substring check). -/
def leadsWith : Str → Str → Bool
  | [], _ => true
  | _ :: _, [] => false
  | c :: n, d :: h => c == d && leadsWith n h

/-- JS `String.prototype.includes`: `subList n h = true` iff `n` occurs
contiguously inside `h`. -/
def subList (n : Str) : Str → Bool
  | [] => leadsWith n []
  | h :: t => leadsWith n (h :: t) || subList n t

theorem leadsWith_iff (n : Str) : ∀ h : Str, leadsWith n h = true ↔ ∃ t, h = n ++ t := by
  induction n with
  | nil =>
    intro h
    simp [leadsWith]
  | cons c n ih =>
    intro h
    cases h with
    | nil => simp [leadsWith]
    | cons d t =>
      simp only [leadsWith, Bool.and_eq_true, beq_iff_eq, ih t, List.cons_append,
        List.cons.injEq]
      constructor
      · rintro ⟨rfl, u, rfl⟩
        exact ⟨u, rfl, rfl⟩
      · rintro ⟨u, rfl, rfl⟩
        exact ⟨rfl, u, rfl⟩

theorem subList_iff (n : Str) : ∀ h : Str, subList n h = true ↔ ∃ p t, h = p ++ n ++ t := by
  intro h
  induction h with
  | nil =>
    simp only [subList, leadsWith_iff]
    constructor
    · rintro ⟨t, ht⟩
      exact ⟨[], t, by simpa using ht⟩
    · rintro ⟨p, t, ht⟩
      have hp : p = [] := by
        cases p with
        | nil => rfl
        | cons a b => simp at ht
      subst hp
      exact ⟨t, by simpa using ht⟩
  | cons d t ih =>
    simp only [subList, Bool.or_eq_true, leadsWith_iff, ih]
    constructor
    · rintro (⟨u, hu⟩ | ⟨p, u, hu⟩)
      · exact ⟨[], u, by simpa using hu⟩
      · exact ⟨d :: p, u, by simp [hu]⟩
    · rintro ⟨p, u, hu⟩
      cases p with
      | nil => exact Or.inl ⟨u, by simpa using hu⟩
      | cons a b =>
        simp only [List.cons_append, List.cons.injEq] at hu
        exact Or.inr ⟨b, u, by simp [hu.1, hu.2]⟩

mutual
/-- A JavaScript runtime value, as far as this layer inspects one.  `bigint`
is the representative of values on which `JSON.stringify` throws. -/
inductive JsVal where
  | undefined : JsVal
  | null : JsVal
  | bool (b : Bool) : JsVal
  | num (n : Int) : JsVal
  | str (s : Str) : JsVal
  | bigint (n : Int) : JsVal
  | arr (items : JsArr) : JsVal
  | obj (entries : JsObj) : JsVal

/-- A JS array of values. -/
inductive JsArr where
  | nil : JsArr
  | cons (v : JsVal) (t : JsArr) : JsArr

/-- A JS plain object: ordered key/value entries (keys are unique in a JS
object; insertion order is observable through `Object.entries`). -/
inductive JsObj where
  | nil : JsObj
  | cons (k : Str) (v : JsVal) (t : JsObj) : JsObj
end

/-- Is the value neither a (non-null) object nor an array?  These are the
values the masking loop copies through unchanged. -/
def JsVal.plain : JsVal → Bool
  | .obj _ => false
  | .arr _ => false
  | _ => true

/-- The keys of an object, in entry order. -/
def JsObj.keys : JsObj → List Str
  | .nil => []
  | .cons k _ t => k :: t.keys

/-- JS property read `o[k]` (first entry wins; JS objects have unique keys). -/
def JsObj.find : JsObj → Str → Option JsVal
  | .nil, _ => none
  | .cons k v t, q => if k = q then some v else t.find q

/-- `Object.entries` applied to an array: index-keyed entries `("0", v0), ...`. -/
def arrEntries (i : Nat) : JsArr → JsObj
  | .nil => .nil
  | .cons v t => .cons (toString i).toList v (arrEntries (i + 1) t)

/-! ## Redaction engine (`structured-logger.service.ts`, `maskSensitiveData`) -/

/-- The sensitivity test of the masking loop:
`sensitiveFields.some((field) => lowerKey.includes(field.toLowerCase()))`. -/
def isSensitiveKey (sensitiveFields : List Str) (k : Str) : Bool :=
  sensitiveFields.any (fun field => subList (lowerStr field) (lowerStr k))

/-- The fixed redaction marker. -/
def REDACTED : Str := "[REDACTED]".toList

mutual
/-- `StructuredLoggerService.maskSensitiveData`: iterates the entries in
order; sensitive keys get the marker, nested non-null non-array objects are
recursed into, arrays are mapped element-wise, all other values are copied. -/
def maskSensitiveData (fields : List Str) : JsObj → JsObj
  | .nil => .nil
  | .cons k v t =>
    .cons k
      (if isSensitiveKey fields k then .str REDACTED else maskSensValue fields v)
      (maskSensitiveData fields t)

/-- The non-sensitive branch of the loop body:
`value && typeof value === 'object' && !Array.isArray(value)` recurses,
`Array.isArray(value)` maps the elements, anything else passes through
(`null` fails the truthiness test and also passes through). -/
def maskSensValue (fields : List Str) : JsVal → JsVal
  | .obj r => .obj (maskSensitiveData fields r)
  | .arr items => .arr (maskSensItems fields items)
  | v => v

def maskSensItems (fields : List Str) : JsArr → JsArr
  | .nil => .nil
  | .cons v t => .cons (maskSensItem fields v) (maskSensItems fields t)

/-- `typeof item === 'object' && item !== null ? maskSensitiveData(item) : item`.
A nested array is itself `typeof 'object'`, so it is fed to
`maskSensitiveData`, whose `Object.entries` loop views it as an
index-keyed plain object (and returns a plain object); `maskArrAsObj` is
that loop fused with the index-keyed view (see `maskArrAsObj_eq`). -/
def maskSensItem (fields : List Str) : JsVal → JsVal
  | .obj r => .obj (maskSensitiveData fields r)
  | .arr items => .obj (maskArrAsObj fields 0 items)
  | v => v

/-- `maskSensitiveData` applied to `Object.entries` of an array: each
element `v` at index `i` becomes the entry `(toString i, masked v)`. -/
def maskArrAsObj (fields : List Str) (i : Nat) : JsArr → JsObj
  | .nil => .nil
  | .cons v t =>
    .cons (toString i).toList
      (if isSensitiveKey fields (toString i).toList then .str REDACTED
       else maskSensValue fields v)
      (maskArrAsObj fields (i + 1) t)
end

theorem maskArrAsObj_eq (fields : List Str) :
    ∀ (l : JsArr) (i : Nat),
      maskArrAsObj fields i l = maskSensitiveData fields (arrEntries i l)
  | .nil, _ => by simp [maskArrAsObj, arrEntries, maskSensitiveData]
  | .cons v t, i => by
    simp [maskArrAsObj, arrEntries, maskSensitiveData, maskArrAsObj_eq fields t]

/-- `DEFAULT_SENSITIVE_FIELDS` from `src/constants/index.ts`. -/
def DEFAULT_SENSITIVE_FIELDS : List Str :=
  ["password".toList, "token".toList, "authorization".toList, "secret".toList,
   "key".toList, "apikey".toList, "api_key".toList, "api-key".toList,
   "bearer".toList, "credential".toList, "private".toList, "cpf".toList,
   "cnpj".toList, "ssn".toList, "credit_card".toList, "card_number".toList]

theorem maskSensitiveData_keys (fields : List Str) :
    ∀ o : JsObj, (maskSensitiveData fields o).keys = o.keys
  | .nil => by simp [maskSensitiveData, JsObj.keys]
  | .cons k v t => by
    simp [maskSensitiveData, JsObj.keys, maskSensitiveData_keys fields t]

theorem maskSensitiveData_find (fields : List Str) :
    ∀ (o : JsObj) (q : Str), (maskSensitiveData fields o).find q =
      (o.find q).map
        (fun v => if isSensitiveKey fields q then JsVal.str REDACTED else maskSensValue fields v)
  | .nil, _ => by simp [maskSensitiveData, JsObj.find]
  | .cons k v t, q => by
    by_cases h : k = q
    · subst h
      simp [maskSensitiveData, JsObj.find]
    · simp [maskSensitiveData, JsObj.find, h, maskSensitiveData_find fields t q]

theorem isSensitiveKey_iff (fields : List Str) (k : Str) :
    isSensitiveKey fields k = true ↔
      ∃ f ∈ fields, subList (lowerStr f) (lowerStr k) = true := by
  simp [isSensitiveKey, List.any_eq_true]

/-- C2: masking replaces the value of exactly those keys that
case-insensitively contain some entry of the sensitive list (first
conjunct: the code's `some`/`includes` test is that substring condition;
third conjunct: property lookup after masking shows every matched key
bound to the marker and every other key bound to its recursively masked
value), preserves the key structure (second conjunct), recurses into
nested maps and into each map element of arrays (last four conjuncts), and
passes every non-matched, non-map, non-array value through unchanged at
every nesting depth (fourth conjunct, which applies at each recursion
level). -/
theorem maskSensitiveData_claim (fields : List Str) :
    (∀ k, isSensitiveKey fields k = true ↔
        ∃ f ∈ fields, subList (lowerStr f) (lowerStr k) = true)
  ∧ (∀ o : JsObj, (maskSensitiveData fields o).keys = o.keys)
  ∧ (∀ (o : JsObj) (q : Str), (maskSensitiveData fields o).find q =
        (o.find q).map
          (fun v => if isSensitiveKey fields q then JsVal.str REDACTED
                    else maskSensValue fields v))
  ∧ (∀ v : JsVal, v.plain = true → maskSensValue fields v = v ∧ maskSensItem fields v = v)
  ∧ (∀ o : JsObj, maskSensValue fields (.obj o) = .obj (maskSensitiveData fields o))
  ∧ (∀ l : JsArr, maskSensValue fields (.arr l) = .arr (maskSensItems fields l))
  ∧ (∀ (v : JsVal) (l : JsArr), maskSensItems fields (.cons v l) =
        .cons (maskSensItem fields v) (maskSensItems fields l))
  ∧ (∀ o : JsObj, maskSensItem fields (.obj o) = .obj (maskSensitiveData fields o)) := by
  refine ⟨isSensitiveKey_iff fields, maskSensitiveData_keys fields,
    maskSensitiveData_find fields, ?_, ?_, ?_, ?_, ?_⟩
  · intro v h
    cases v <;> simp_all [JsVal.plain, maskSensValue, maskSensItem]
  · intro o
    simp [maskSensValue]
  · intro l
    simp [maskSensValue]
  · intro v l
    simp [maskSensItems]
  · intro o
    simp [maskSensItem]

theorem maskSensitiveData_claim_witness :
    isSensitiveKey DEFAULT_SENSITIVE_FIELDS ("Authorization".toList) = true
  ∧ maskSensValue DEFAULT_SENSITIVE_FIELDS (.num 7) = .num 7 := by
  have h := maskSensitiveData_claim DEFAULT_SENSITIVE_FIELDS
  exact ⟨(h.1 _).mpr ⟨"authorization".toList, by decide, by decide⟩,
    (h.2.2.2.1 _ (by decide)).1⟩

/-- C10: under the default sensitive-field list, any metadata key whose
lowercased name contains the substring "key" is redacted by the masking
loop (the list contains the entry "key" and matching is by substring), and
in particular the context keys "message_keys" and "data_keys" match. -/
theorem default_fields_redact_key_substring (k : Str) (v : JsVal) (t : JsObj)
    (h : subList ("key".toList) (lowerStr k) = true) :
    isSensitiveKey DEFAULT_SENSITIVE_FIELDS k = true
  ∧ maskSensitiveData DEFAULT_SENSITIVE_FIELDS (.cons k v t) =
      .cons k (.str REDACTED) (maskSensitiveData DEFAULT_SENSITIVE_FIELDS t)
  ∧ isSensitiveKey DEFAULT_SENSITIVE_FIELDS ("message_keys".toList) = true
  ∧ isSensitiveKey DEFAULT_SENSITIVE_FIELDS ("data_keys".toList) = true := by
  have hmem : ("key".toList) ∈ DEFAULT_SENSITIVE_FIELDS := by decide
  have hlow : lowerStr ("key".toList) = "key".toList := by decide
  have hs : isSensitiveKey DEFAULT_SENSITIVE_FIELDS k = true := by
    unfold isSensitiveKey
    rw [List.any_eq_true]
    exact ⟨"key".toList, hmem, by rw [hlow]; exact h⟩
  refine ⟨hs, ?_, by decide, by decide⟩
  simp [maskSensitiveData, hs]

theorem default_fields_redact_key_substring_witness :
    subList ("key".toList) (lowerStr ("message_keys".toList)) = true
  ∧ maskSensitiveData DEFAULT_SENSITIVE_FIELDS
      (.cons ("message_keys".toList) (.str "q".toList) .nil) =
      .cons ("message_keys".toList) (.str REDACTED)
        (maskSensitiveData DEFAULT_SENSITIVE_FIELDS .nil) := by
  have h := default_fields_redact_key_substring ("message_keys".toList)
    (.str "q".toList) .nil (by decide)
  exact ⟨by decide, h.2.1⟩

/-! ## JSON serialization (`JSON.stringify` over the modelled value domain) -/

/-- Lowercase hex digit. -/
def hexDigit (n : Nat) : Char :=
  if n < 10 then Char.ofNat ('0'.toNat + n) else Char.ofNat ('a'.toNat + n - 10)

/-- JSON escaping of one character, as `JSON.stringify` performs it. -/
def escapeChar (c : Char) : Str :=
  if c = '"' then ['\\', '"']
  else if c = '\\' then ['\\', '\\']
  else if c = '\n' then ['\\', 'n']
  else if c = '\r' then ['\\', 'r']
  else if c = '\t' then ['\\', 't']
  else if c.toNat = 8 then ['\\', 'b']
  else if c.toNat = 12 then ['\\', 'f']
  else if c.toNat < 32 then
    ['\\', 'u', '0', '0', hexDigit (c.toNat / 16), hexDigit (c.toNat % 16)]
  else [c]

def escapeJson (s : Str) : Str := s.flatMap escapeChar

def quoteJson (s : Str) : Str := '"' :: (escapeJson s ++ ['"'])

def joinComma : List Str → Str
  | [] => []
  | [s] => s
  | s :: t => s ++ [','] ++ joinComma t

mutual
/-- `JSON.stringify` restricted to the modelled value domain.  `.error ()`
is a thrown `TypeError` (a BigInt somewhere in the value).  For a top-level
`undefined` JS returns `undefined` rather than a string; that case is also
mapped to `.error ()` here — it is unreachable from `truncateBody`, which
filters `undefined` and `null` before serializing, and from the logger,
which serializes entry objects only. -/
def jsonStringify : JsVal → Except Unit Str
  | .undefined => .error ()
  | .null => .ok ("null".toList)
  | .bool b => .ok (if b then "true".toList else "false".toList)
  | .num n => .ok (toString n).toList
  | .str s => .ok (quoteJson s)
  | .bigint _ => .error ()
  | .arr items =>
    match jsonStringifyArr items with
    | .error e => .error e
    | .ok parts => .ok ('[' :: (joinComma parts ++ [']']))
  | .obj entries =>
    match jsonStringifyObj entries with
    | .error e => .error e
    | .ok parts => .ok ('\x7b' :: (joinComma parts ++ ['\x7d']))

/-- Array elements: `undefined` serializes as `null`; a BigInt throws. -/
def jsonStringifyArr : JsArr → Except Unit (List Str)
  | .nil => .ok []
  | .cons v t =>
    match (match v with
           | .undefined => (.ok ("null".toList) : Except Unit Str)
           | v => jsonStringify v) with
    | .error e => .error e
    | .ok s =>
      match jsonStringifyArr t with
      | .error e => .error e
      | .ok rest => .ok (s :: rest)

/-- Object entries: keys with `undefined` values are dropped. -/
def jsonStringifyObj : JsObj → Except Unit (List Str)
  | .nil => .ok []
  | .cons _ .undefined t => jsonStringifyObj t
  | .cons k v t =>
    match jsonStringify v with
    | .error e => .error e
    | .ok s =>
      match jsonStringifyObj t with
      | .error e => .error e
      | .ok rest => .ok ((quoteJson k ++ (':' :: s)) :: rest)
end

mutual
/-- No `undefined` and no BigInt anywhere inside: exactly the values whose
serialization round-trips to the same value. -/
def vClean : JsVal → Bool
  | .undefined => false
  | .bigint _ => false
  | .arr items => aClean items
  | .obj entries => oClean entries
  | _ => true

def aClean : JsArr → Bool
  | .nil => true
  | .cons v t => vClean v && aClean t

def oClean : JsObj → Bool
  | .nil => true
  | .cons _ v t => vClean v && oClean t
end

mutual
/-- `JSON.parse` applied to a successful `JSON.stringify` output of the
value: reconstructs the value with `undefined` object entries dropped and
`undefined` array elements read back as `null` (the two rewritings the
serialization itself performs on this value domain). -/
def jsonRoundtrip : JsVal → JsVal
  | .obj entries => .obj (jsonRoundtripObj entries)
  | .arr items => .arr (jsonRoundtripArr items)
  | v => v

def jsonRoundtripArr : JsArr → JsArr
  | .nil => .nil
  | .cons .undefined t => .cons .null (jsonRoundtripArr t)
  | .cons v t => .cons (jsonRoundtrip v) (jsonRoundtripArr t)

def jsonRoundtripObj : JsObj → JsObj
  | .nil => .nil
  | .cons _ .undefined t => jsonRoundtripObj t
  | .cons k v t => .cons k (jsonRoundtrip v) (jsonRoundtripObj t)
end

mutual
theorem jsonRoundtrip_clean : ∀ v : JsVal, vClean v = true → jsonRoundtrip v = v
  | .undefined, h => by simp [vClean] at h
  | .null, _ => by simp [jsonRoundtrip]
  | .bool _, _ => by simp [jsonRoundtrip]
  | .num _, _ => by simp [jsonRoundtrip]
  | .str _, _ => by simp [jsonRoundtrip]
  | .bigint _, h => by simp [vClean] at h
  | .arr items, h => by
    simp only [vClean] at h
    simp [jsonRoundtrip, jsonRoundtripArr_clean items h]
  | .obj entries, h => by
    simp only [vClean] at h
    simp [jsonRoundtrip, jsonRoundtripObj_clean entries h]

theorem jsonRoundtripArr_clean : ∀ l : JsArr, aClean l = true → jsonRoundtripArr l = l
  | .nil, _ => by simp [jsonRoundtripArr]
  | .cons v t, h => by
    simp only [aClean, Bool.and_eq_true] at h
    have hv := jsonRoundtrip_clean v h.1
    have ht := jsonRoundtripArr_clean t h.2
    cases v <;> simp_all [jsonRoundtrip, jsonRoundtripArr, vClean]

theorem jsonRoundtripObj_clean : ∀ o : JsObj, oClean o = true → jsonRoundtripObj o = o
  | .nil, _ => by simp [jsonRoundtripObj]
  | .cons k v t, h => by
    simp only [oClean, Bool.and_eq_true] at h
    have hv := jsonRoundtrip_clean v h.1
    have ht := jsonRoundtripObj_clean t h.2
    cases v <;> simp_all [jsonRoundtrip, jsonRoundtripObj, vClean]
end

/-! ## Truncation (`error-classifier.util.ts`, `truncateBody`) -/

/-- The suffix appended to a truncated serialization, stating the original
size (`... [TRUNCATED - total: N bytes]`). -/
def truncSuffix (n : Nat) : Str :=
  "... [TRUNCATED - total: ".toList ++ (toString n).toList ++ " bytes]".toList

/-- Is the value a JS string? -/
def JsVal.strLike : JsVal → Bool
  | .str _ => true
  | _ => false

/-- `truncateBody(body, maxSize)`: `undefined`/`null` return `undefined`;
strings are measured raw; other values are measured through
`JSON.stringify` (a throw yields the sentinel); values at or under the
limit are returned (non-strings through `JSON.parse` of the serialized
text, which on this value domain is `jsonRoundtrip`; the inner
`try/catch` around `JSON.parse` cannot fire on `JSON.stringify` output);
values over the limit are replaced by the truncated text plus suffix. -/
def truncateBody (body : JsVal) (maxSize : Nat) : JsVal :=
  match body with
  | .undefined => .undefined
  | .null => .undefined
  | .str s =>
    if s.length ≤ maxSize then .str s
    else .str (s.take maxSize ++ truncSuffix s.length)
  | body =>
    match jsonStringify body with
    | .error _ => .str "[SERIALIZATION_ERROR]".toList
    | .ok s =>
      if s.length ≤ maxSize then jsonRoundtrip body
      else .str (s.take maxSize ++ truncSuffix s.length)

/-- C3 counterexample: `null` serializes to `"null"` (4 characters, under
any practical limit), yet `truncateBody` returns `undefined` rather than
the value unchanged — the guard at the top of the function maps both
`undefined` and `null` to `undefined` before the size check. -/
theorem truncateBody_null_counterexample :
    jsonStringify JsVal.null = .ok ("null".toList)
  ∧ ("null".toList).length ≤ 10000
  ∧ truncateBody JsVal.null 10000 = JsVal.undefined
  ∧ JsVal.undefined ≠ JsVal.null :=
  ⟨rfl, by decide, rfl, fun h => JsVal.noConfusion h⟩

/-- C3 amended: strings at or under the limit (strings are measured raw,
without serialization) pass through unchanged; every other non-null,
defined value with no `undefined` member whose serialization is at or
under the limit passes through unchanged (identity, hence idempotent at
the boundary); every value over the limit is replaced by the first
`maxSize` characters of its (raw or serialized) text plus a suffix stating
the original size, of total length `maxSize` + suffix length;
serialization failure yields the fixed sentinel string and never an
exception (the function is total); `null` and `undefined` map to
`undefined`. -/
theorem truncateBody_claim :
    (∀ (s : Str) (m : Nat), s.length ≤ m → truncateBody (.str s) m = .str s)
  ∧ (∀ (body : JsVal) (m : Nat) (s : Str), body.strLike = false → body ≠ .null →
        vClean body = true → jsonStringify body = .ok s → s.length ≤ m →
        truncateBody body m = body)
  ∧ (∀ (s : Str) (m : Nat), m < s.length →
        truncateBody (.str s) m = .str (s.take m ++ truncSuffix s.length)
      ∧ (s.take m ++ truncSuffix s.length).length = m + (truncSuffix s.length).length)
  ∧ (∀ (body : JsVal) (m : Nat) (s : Str), body.strLike = false → body ≠ .null →
        jsonStringify body = .ok s → m < s.length →
        truncateBody body m = .str (s.take m ++ truncSuffix s.length))
  ∧ (∀ (body : JsVal) (m : Nat), body ≠ .undefined → body ≠ .null →
        jsonStringify body = .error () →
        truncateBody body m = .str ("[SERIALIZATION_ERROR]".toList))
  ∧ (∀ m : Nat, truncateBody .undefined m = .undefined
      ∧ truncateBody .null m = .undefined) := by
  refine ⟨?_, ?_, ?_, ?_, ?_, ?_⟩
  · intro s m h
    simp [truncateBody, h]
  · intro body m s h1 h2 h3 h4 h5
    have hr := jsonRoundtrip_clean body h3
    cases body <;> simp_all [truncateBody, JsVal.strLike, vClean]
  · intro s m h
    refine ⟨by simp [truncateBody, show ¬ s.length ≤ m by omega], ?_⟩
    simp only [List.length_append, List.length_take]
    omega
  · intro body m s h1 h2 h3 h4
    have hn : ¬ s.length ≤ m := by omega
    cases body <;> simp_all [truncateBody, JsVal.strLike, jsonStringify]
  · intro body m h1 h2 h3
    cases body <;> simp_all [truncateBody, jsonStringify]
  · intro m
    exact ⟨rfl, rfl⟩

theorem truncateBody_claim_witness :
    truncateBody (.str "abc".toList) 10 = .str ("abc".toList)
  ∧ truncateBody (.num 12345) 10000 = .num 12345
  ∧ truncateBody (.str "abcdef".toList) 3 = .str ("abc".toList ++ truncSuffix 6)
  ∧ truncateBody (.bigint 1) 5 = .str ("[SERIALIZATION_ERROR]".toList) := by
  have h := truncateBody_claim
  refine ⟨h.1 ("abc".toList) 10 (by decide), ?_, ?_, ?_⟩
  · exact h.2.1 (.num 12345) 10000 ("12345".toList) (by decide)
      (fun hc => JsVal.noConfusion hc) (by decide) rfl (by decide)
  · have hc := (h.2.2.1 ("abcdef".toList) 3 (by decide)).1
    simpa using hc
  · exact h.2.2.2.2.1 (.bigint 1) 5 (fun hc => JsVal.noConfusion hc)
      (fun hc => JsVal.noConfusion hc) rfl

/-! ## Metric label normalization (`metrics.service.ts`) -/

/-- Hex digit as matched by the UUID regex with the `i` flag. -/
def isHexChar (c : Char) : Bool :=
  ('0' ≤ c && c ≤ '9') || ('a' ≤ c && c ≤ 'f') || ('A' ≤ c && c ≤ 'F')

/-- Match exactly `n` hex characters, returning the remainder. -/
def matchHexRun : Nat → Str → Option Str
  | 0, rest => some rest
  | n + 1, c :: rest => if isHexChar c then matchHexRun n rest else none
  | _ + 1, [] => none

/-- Match one `-`, returning the remainder. -/
def matchDash : Str → Option Str
  | [] => none
  | c :: rest => if c = '-' then some rest else none

/-- Match the UUID shape `[0-9a-f]{8}-(4)-(4)-(4)-(12)` (case-insensitive)
at the head of the string, returning the remainder after the 36 matched
characters. -/
def matchUuid (s : Str) : Option Str :=
  (matchHexRun 8 s).bind (fun r => (matchDash r).bind (fun r => (matchHexRun 4 r).bind
    (fun r => (matchDash r).bind (fun r => (matchHexRun 4 r).bind (fun r =>
      (matchDash r).bind (fun r => (matchHexRun 4 r).bind (fun r =>
        (matchDash r).bind (matchHexRun 12))))))))

/-- Global regex replacement of every UUID-shaped occurrence by
`placeholder` (the scan resumes right after each match, as the regex
engine's `lastIndex` does).  The `fuel` argument counts scan steps; every
step consumes at least one character, so starting it at the string length
(see `replaceUuid`) makes the zero-fuel case unreachable. -/
def replaceUuidGo (placeholder : Str) : Nat → Str → Str
  | _, [] => []
  | 0, s => s
  | fuel + 1, c :: rest =>
    match matchUuid (c :: rest) with
    | some rem => placeholder ++ replaceUuidGo placeholder fuel rem
    | none => c :: replaceUuidGo placeholder fuel rest

/-- `route.replace(uuidRegex, placeholder)`. -/
def replaceUuid (placeholder : Str) (s : Str) : Str :=
  replaceUuidGo placeholder s.length s

/-- `route.replace(/\/\d+/g, '/:id')`: a slash followed by a maximal run
of digits is replaced; the scan resumes after the digit run.  Same fuel
discipline as `replaceUuidGo`. -/
def replaceSlashNumGo : Nat → Str → Str
  | _, [] => []
  | 0, s => s
  | fuel + 1, '/' :: c :: rest =>
    if c.isDigit then
      '/' :: ':' :: 'i' :: 'd' :: replaceSlashNumGo fuel (rest.dropWhile Char.isDigit)
    else '/' :: replaceSlashNumGo fuel (c :: rest)
  | fuel + 1, c :: rest => c :: replaceSlashNumGo fuel rest

def replaceSlashNum (s : Str) : Str := replaceSlashNumGo s.length s

/-- `routingKey.replace(/\.\d{10,}\./g, '.*.')`: a dot, at least ten
digits and a closing dot are replaced by `.*.`; the scan resumes after
the closing dot (so that dot cannot open the next match).  Same fuel
discipline as `replaceUuidGo`. -/
def replaceDotLongNumGo : Nat → Str → Str
  | _, [] => []
  | 0, s => s
  | fuel + 1, '.' :: rest =>
    if 10 ≤ (rest.takeWhile Char.isDigit).length then
      match rest.dropWhile Char.isDigit with
      | '.' :: tail => '.' :: '*' :: '.' :: replaceDotLongNumGo fuel tail
      | _ => '.' :: replaceDotLongNumGo fuel rest
    else '.' :: replaceDotLongNumGo fuel rest
  | fuel + 1, c :: rest => c :: replaceDotLongNumGo fuel rest

def replaceDotLongNum (s : Str) : Str := replaceDotLongNumGo s.length s

/-- `MetricsService.normalizeRoute`: UUID segments, then `/<digits>` runs,
then the 100-character cap. -/
def normalizeRoute (route : Str) : Str :=
  (replaceSlashNum (replaceUuid (":id".toList) route)).take 100

/-- `MetricsService.normalizeRoutingKey`: UUIDs become `*`, long numeric
segments delimited by dots become `.*.`, then the 100-character cap. -/
def normalizeRoutingKey (routingKey : Str) : Str :=
  (replaceDotLongNum (replaceUuid ("*".toList) routingKey)).take 100

/-! ## Metric aggregation (`metrics.service.ts`) -/

/-- Labels of `http_requests_total` / `http_errors_total` /
`http_request_duration_seconds`. -/
structure HttpLabels where
  method : Str
  route : Str
  status_code : Str
deriving DecidableEq

/-- Labels of the RabbitMQ metric family. -/
structure RabbitLabels where
  exchange : Str
  routing_key : Str
  operation : Str
deriving DecidableEq

/-- Labels of the WebSocket metric family. -/
structure WsLabels where
  event : Str
deriving DecidableEq

/-- Labels of `errors_total`. -/
structure ErrorLabels where
  error_type : Str
  context : Str
  error_code : Str
deriving DecidableEq

/-- Process-wide metric state: each counter maps a label tuple to its
current count, each histogram maps a label tuple to the list of recorded
observations (in seconds, exact rationals in place of JS floats). -/
structure MetricsState where
  httpRequestsTotal : HttpLabels → Nat
  httpErrorsTotal : HttpLabels → Nat
  httpRequestDuration : HttpLabels → List ℚ
  rabbitMessagesTotal : RabbitLabels → Nat
  rabbitErrorsTotal : RabbitLabels → Nat
  rabbitProcessingDuration : RabbitLabels → List ℚ
  wsEventsTotal : WsLabels → Nat
  wsErrorsTotal : WsLabels → Nat
  wsEventDuration : WsLabels → List ℚ
  errorsTotal : ErrorLabels → Nat

/-- `counter.add(1, labels)`. -/
def bump {L : Type} [DecidableEq L] (c : L → Nat) (lbl : L) : L → Nat :=
  fun l => if l = lbl then c l + 1 else c l

/-- `histogram.record(x, labels)`. -/
def observe {L : Type} [DecidableEq L] (h : L → List ℚ) (lbl : L) (x : ℚ) : L → List ℚ :=
  fun l => if l = lbl then h l ++ [x] else h l

/-- Argument record of `recordHttpRequest`. -/
structure HttpAttrs where
  method : Str
  route : Str
  statusCode : Int
  durationMs : ℚ

/-- The label tuple built by `recordHttpRequest`
(`String(statusCode)` is decimal rendering). -/
def httpLabels (a : HttpAttrs) : HttpLabels :=
  ⟨a.method, normalizeRoute a.route, (toString a.statusCode).toList⟩

/-- `MetricsService.recordHttpRequest`: always bumps the request counter
and records the duration (milliseconds divided by 1000); bumps the error
counter with the same labels exactly when `statusCode >= 400`. -/
def recordHttpRequest (st : MetricsState) (a : HttpAttrs) : MetricsState :=
  let labels := httpLabels a
  { st with
    httpRequestsTotal := bump st.httpRequestsTotal labels
    httpRequestDuration := observe st.httpRequestDuration labels (a.durationMs / 1000)
    httpErrorsTotal :=
      if 400 ≤ a.statusCode then bump st.httpErrorsTotal labels else st.httpErrorsTotal }

/-- Argument record of `recordRabbitMessage` (`operation` is the string
`"publish"` or `"consume"`). -/
structure RabbitAttrs where
  exchange : Str
  routingKey : Str
  operation : Str
  success : Bool
  durationMs : Option ℚ

/-- The label tuple built by `recordRabbitMessage`. -/
def rabbitLabels (a : RabbitAttrs) : RabbitLabels :=
  ⟨a.exchange, normalizeRoutingKey a.routingKey, a.operation⟩

/-- `MetricsService.recordRabbitMessage`. -/
def recordRabbitMessage (st : MetricsState) (a : RabbitAttrs) : MetricsState :=
  let labels := rabbitLabels a
  { st with
    rabbitMessagesTotal := bump st.rabbitMessagesTotal labels
    rabbitErrorsTotal :=
      if a.success then st.rabbitErrorsTotal else bump st.rabbitErrorsTotal labels
    rabbitProcessingDuration :=
      match a.durationMs with
      | some d => observe st.rabbitProcessingDuration labels (d / 1000)
      | none => st.rabbitProcessingDuration }

/-- Argument record of `recordWsEvent`. -/
structure WsAttrs where
  event : Str
  success : Bool
  durationMs : Option ℚ

/-- `MetricsService.recordWsEvent`. -/
def recordWsEvent (st : MetricsState) (a : WsAttrs) : MetricsState :=
  let labels : WsLabels := ⟨a.event⟩
  { st with
    wsEventsTotal := bump st.wsEventsTotal labels
    wsErrorsTotal :=
      if a.success then st.wsErrorsTotal else bump st.wsErrorsTotal labels
    wsEventDuration :=
      match a.durationMs with
      | some d => observe st.wsEventDuration labels (d / 1000)
      | none => st.wsEventDuration }

/-- JS `x || 'unknown'`: an absent or empty code falls back to "unknown". -/
def codeOrUnknown : Option Str → Str
  | some c => if c.isEmpty then "unknown".toList else c
  | none => "unknown".toList

/-- Argument record of `recordError`. -/
structure ErrorAttrs where
  type : Str
  context : Str
  code : Option Str

/-- `MetricsService.recordError`. -/
def recordError (st : MetricsState) (a : ErrorAttrs) : MetricsState :=
  { st with
    errorsTotal := bump st.errorsTotal ⟨a.type, a.context, codeOrUnknown a.code⟩ }

/-- C7: route normalization replaces UUID-shaped and purely numeric path
segments with a placeholder and caps the label at 100 characters (first
conjunct: cap for every route; next two: the replacements on the claim's
shapes); recording a GET request to the UUID path with status 200
increments `http_requests_total` by exactly 1 at labels
`(GET, /users/:id, 200)` and leaves every other label tuple unchanged. -/
theorem normalizeRoute_claim :
    (∀ r : Str, (normalizeRoute r).length ≤ 100)
  ∧ normalizeRoute ("/users/123e4567-e89b-12d3-a456-426614174000".toList) =
      "/users/:id".toList
  ∧ normalizeRoute ("/users/123".toList) = "/users/:id".toList
  ∧ (∀ (st : MetricsState) (d : ℚ),
      (recordHttpRequest st
        ⟨"GET".toList, "/users/123e4567-e89b-12d3-a456-426614174000".toList, 200, d⟩).httpRequestsTotal
          ⟨"GET".toList, "/users/:id".toList, "200".toList⟩ =
        st.httpRequestsTotal ⟨"GET".toList, "/users/:id".toList, "200".toList⟩ + 1
    ∧ ∀ l : HttpLabels, l ≠ ⟨"GET".toList, "/users/:id".toList, "200".toList⟩ →
        (recordHttpRequest st
          ⟨"GET".toList, "/users/123e4567-e89b-12d3-a456-426614174000".toList, 200, d⟩).httpRequestsTotal l =
          st.httpRequestsTotal l) := by
  refine ⟨?_, by decide, by decide, ?_⟩
  · intro r
    simp only [normalizeRoute, List.length_take]
    omega
  · intro st d
    have hl : httpLabels
        ⟨"GET".toList, "/users/123e4567-e89b-12d3-a456-426614174000".toList, 200, d⟩ =
        ⟨"GET".toList, "/users/:id".toList, "200".toList⟩ := by
      simp only [httpLabels]
      decide
    constructor
    · simp only [recordHttpRequest, bump]
      rw [hl]
      simp
    · intro l hne
      simp only [recordHttpRequest, bump]
      rw [hl, if_neg hne]

theorem normalizeRoute_claim_witness :
    ∀ st : MetricsState,
      (recordHttpRequest st
        ⟨"GET".toList, "/users/123e4567-e89b-12d3-a456-426614174000".toList, 200, 5⟩).httpRequestsTotal
        ⟨"POST".toList, "/users/:id".toList, "200".toList⟩ =
      st.httpRequestsTotal ⟨"POST".toList, "/users/:id".toList, "200".toList⟩ :=
  fun st => ((normalizeRoute_claim.2.2.2 st 5).2
    ⟨"POST".toList, "/users/:id".toList, "200".toList⟩ (by decide))

/-- C8: for each of the three domains (HTTP request, broker message,
socket event) the parallel `_errors` counter is incremented — with the same
label tuple as the main counter — exactly when the outcome is a failure
(`statusCode >= 400` for requests, `success === false` otherwise), and the
main counter is always incremented at that label tuple; all other label
tuples are untouched (both facts are stated pointwise over every label). -/
theorem errorCounters_claim :
    (∀ (st : MetricsState) (a : HttpAttrs) (l : HttpLabels),
        (recordHttpRequest st a).httpErrorsTotal l =
          st.httpErrorsTotal l + (if 400 ≤ a.statusCode ∧ l = httpLabels a then 1 else 0)
      ∧ (recordHttpRequest st a).httpRequestsTotal l =
          st.httpRequestsTotal l + (if l = httpLabels a then 1 else 0))
  ∧ (∀ (st : MetricsState) (a : RabbitAttrs) (l : RabbitLabels),
        (recordRabbitMessage st a).rabbitErrorsTotal l =
          st.rabbitErrorsTotal l +
            (if a.success = false ∧ l = rabbitLabels a then 1 else 0)
      ∧ (recordRabbitMessage st a).rabbitMessagesTotal l =
          st.rabbitMessagesTotal l + (if l = rabbitLabels a then 1 else 0))
  ∧ (∀ (st : MetricsState) (a : WsAttrs) (l : WsLabels),
        (recordWsEvent st a).wsErrorsTotal l =
          st.wsErrorsTotal l +
            (if a.success = false ∧ l = (⟨a.event⟩ : WsLabels) then 1 else 0)
      ∧ (recordWsEvent st a).wsEventsTotal l =
          st.wsEventsTotal l + (if l = (⟨a.event⟩ : WsLabels) then 1 else 0)) := by
  refine ⟨?_, ?_, ?_⟩
  · intro st a l
    constructor
    · by_cases hs : 400 ≤ a.statusCode <;> by_cases hl : l = httpLabels a <;>
        simp [recordHttpRequest, bump, hs, hl]
    · by_cases hl : l = httpLabels a <;> simp [recordHttpRequest, bump, hl]
  · intro st a l
    constructor
    · cases hs : a.success <;> by_cases hl : l = rabbitLabels a <;>
        simp [recordRabbitMessage, bump, hs, hl]
    · by_cases hl : l = rabbitLabels a <;> simp [recordRabbitMessage, bump, hl]
  · intro st a l
    constructor
    · cases hs : a.success <;> by_cases hl : l = (⟨a.event⟩ : WsLabels) <;>
        simp [recordWsEvent, bump, hs, hl]
    · by_cases hl : l = (⟨a.event⟩ : WsLabels) <;> simp [recordWsEvent, bump, hl]

/-! ## Error classification (`error-classifier.util.ts`) -/

/-- The closed error taxonomy (`ErrorType` enum in
`observability.types.ts`; the enum's string values are in
`errorTypeStr`). -/
inductive ErrorType where
  | AXIOS
  | PRISMA_KNOWN
  | PRISMA_UNKNOWN
  | PRISMA_VALIDATION
  | HTTP
  | WEBSOCKET
  | RABBITMQ
  | GENERIC
deriving DecidableEq

/-- The string value of each enum member. -/
def errorTypeStr : ErrorType → Str
  | .AXIOS => "AxiosError".toList
  | .PRISMA_KNOWN => "PrismaClientKnownRequestError".toList
  | .PRISMA_UNKNOWN => "PrismaClientUnknownRequestError".toList
  | .PRISMA_VALIDATION => "PrismaClientValidationError".toList
  | .HTTP => "HttpError".toList
  | .WEBSOCKET => "WebSocketError".toList
  | .RABBITMQ => "RabbitMQError".toList
  | .GENERIC => "Error".toList

/-- A thrown JS value, as far as the duck-typed shape guards inspect it:
presence and truthiness of the probed properties.  `code`/`name` record
presence (`some`) together with the string value; `responseStatus` is
`error.response?.status`. -/
structure JsErr where
  isObj : Bool
  hasIsAxiosError : Bool
  isAxiosErrorTruthy : Bool
  code : Option Str
  hasClientVersion : Bool
  name : Option Str
  message : Str
  responseStatus : Option Int

/-- `isAxiosError`: a non-null object with a truthy `isAxiosError`
property. -/
def isAxiosError (e : JsErr) : Bool :=
  e.isObj && e.hasIsAxiosError && e.isAxiosErrorTruthy

/-- `isPrismaKnownRequestError`: object with `code`, `clientVersion` and
`name === 'PrismaClientKnownRequestError'`. -/
def isPrismaKnownRequestError (e : JsErr) : Bool :=
  e.isObj && e.code.isSome && e.hasClientVersion &&
    (e.name == some ("PrismaClientKnownRequestError".toList))

/-- `isPrismaUnknownRequestError`: object with `clientVersion` and
`name === 'PrismaClientUnknownRequestError'`. -/
def isPrismaUnknownRequestError (e : JsErr) : Bool :=
  e.isObj && e.hasClientVersion &&
    (e.name == some ("PrismaClientUnknownRequestError".toList))

/-- `isPrismaValidationError`: object with
`name === 'PrismaClientValidationError'`. -/
def isPrismaValidationError (e : JsErr) : Bool :=
  e.isObj && (e.name == some ("PrismaClientValidationError".toList))

/-- `classifyError`: the guards in source order, first match wins,
`GENERIC` otherwise. -/
def classifyError (e : JsErr) : ErrorType :=
  if isAxiosError e then .AXIOS
  else if isPrismaKnownRequestError e then .PRISMA_KNOWN
  else if isPrismaUnknownRequestError e then .PRISMA_UNKNOWN
  else if isPrismaValidationError e then .PRISMA_VALIDATION
  else .GENERIC

/-- A well-formed Axios-shaped error. -/
def axiosSample : JsErr :=
  ⟨true, true, true, some ("ECONNREFUSED".toList), false, some ("AxiosError".toList),
   "request failed".toList, some 503⟩

/-- A well-formed known Prisma request error. -/
def prismaKnownSample : JsErr :=
  ⟨true, false, false, some ("P2002".toList), true,
   some ("PrismaClientKnownRequestError".toList),
   "Unique constraint failed".toList, none⟩

/-- A well-formed unknown Prisma request error. -/
def prismaUnknownSample : JsErr :=
  ⟨true, false, false, none, true,
   some ("PrismaClientUnknownRequestError".toList), "unknown db error".toList, none⟩

/-- A well-formed Prisma validation error. -/
def prismaValidationSample : JsErr :=
  ⟨true, false, false, none, false,
   some ("PrismaClientValidationError".toList), "invalid arguments".toList, none⟩

/-- A plain `Error`, matching none of the specific shapes. -/
def genericSample : JsErr :=
  ⟨true, false, false, none, false, some ("Error".toList), "boom".toList, none⟩

/-- C6: classification evaluates the shape guards in the fixed source
order — Axios first, then DB known-request, DB unknown-request, DB
validation — returning the kind of the first matching guard and GENERIC
exactly when no guard matches; on a well-formed sample of each of the
four specific shapes it returns that shape's kind, and on a plain error
it returns GENERIC. -/
theorem classifyError_claim :
    (∀ e, isAxiosError e = true → classifyError e = .AXIOS)
  ∧ (∀ e, isAxiosError e = false → isPrismaKnownRequestError e = true →
        classifyError e = .PRISMA_KNOWN)
  ∧ (∀ e, isAxiosError e = false → isPrismaKnownRequestError e = false →
        isPrismaUnknownRequestError e = true → classifyError e = .PRISMA_UNKNOWN)
  ∧ (∀ e, isAxiosError e = false → isPrismaKnownRequestError e = false →
        isPrismaUnknownRequestError e = false → isPrismaValidationError e = true →
        classifyError e = .PRISMA_VALIDATION)
  ∧ (∀ e, classifyError e = .GENERIC ↔
        isAxiosError e = false ∧ isPrismaKnownRequestError e = false ∧
        isPrismaUnknownRequestError e = false ∧ isPrismaValidationError e = false)
  ∧ classifyError axiosSample = .AXIOS
  ∧ classifyError prismaKnownSample = .PRISMA_KNOWN
  ∧ classifyError prismaUnknownSample = .PRISMA_UNKNOWN
  ∧ classifyError prismaValidationSample = .PRISMA_VALIDATION
  ∧ classifyError genericSample = .GENERIC := by
  refine ⟨?_, ?_, ?_, ?_, ?_, by decide, by decide, by decide, by decide, by decide⟩
  · intro e h
    simp [classifyError, h]
  · intro e h1 h2
    simp [classifyError, h1, h2]
  · intro e h1 h2 h3
    simp [classifyError, h1, h2, h3]
  · intro e h1 h2 h3 h4
    simp [classifyError, h1, h2, h3, h4]
  · intro e
    constructor
    · intro h
      by_cases h1 : isAxiosError e = true
      · simp [classifyError, h1] at h
      · by_cases h2 : isPrismaKnownRequestError e = true
        · simp only [Bool.not_eq_true] at h1
          simp [classifyError, h1, h2] at h
        · by_cases h3 : isPrismaUnknownRequestError e = true
          · simp only [Bool.not_eq_true] at h1 h2
            simp [classifyError, h1, h2, h3] at h
          · by_cases h4 : isPrismaValidationError e = true
            · simp only [Bool.not_eq_true] at h1 h2 h3
              simp [classifyError, h1, h2, h3, h4] at h
            · simp only [Bool.not_eq_true] at h1 h2 h3 h4
              exact ⟨h1, h2, h3, h4⟩
    · rintro ⟨h1, h2, h3, h4⟩
      simp [classifyError, h1, h2, h3, h4]

theorem classifyError_claim_witness :
    classifyError prismaKnownSample = .PRISMA_KNOWN :=
  classifyError_claim.2.1 prismaKnownSample (by decide) (by decide)

/-! ## Structured logger (`structured-logger.service.ts`,
`otel-logger.provider.ts`) -/

/-- Log levels with the fixed total order debug < info < warn < error. -/
inductive LogLevel where
  | debug
  | info
  | warn
  | error
deriving DecidableEq

/-- `LOG_LEVEL_PRIORITY`. -/
def LOG_LEVEL_PRIORITY : LogLevel → Nat
  | .debug => 0
  | .info => 1
  | .warn => 2
  | .error => 3

/-- The level's string form (the entry's `level` field). -/
def levelStr : LogLevel → Str
  | .debug => "debug".toList
  | .info => "info".toList
  | .warn => "warn".toList
  | .error => "error".toList

/-- Resolved configuration of a `StructuredLoggerService` instance
(constructor fields after defaulting, plus the `setContext` value). -/
structure LoggerCfg where
  serviceName : Str
  environment : Str
  logLevel : LogLevel
  sensitiveFields : List Str
  enableOtlpLogs : Bool
  enableConsoleLogs : Bool
  context : Option Str

/-- Module state of `otel-logger.provider.ts`: whether `otelLogger` is
non-null, and the `isOtlpAvailable` flag — the remote sink's Degrade
State (`true` = AVAILABLE, `false` = DEGRADED). -/
structure OtelState where
  hasLogger : Bool
  isOtlpAvailable : Bool

/-- `isOtelLoggerAvailable()`. -/
def isOtelLoggerAvailable (st : OtelState) : Bool :=
  st.isOtlpAvailable && st.hasLogger

/-- `markOtlpUnavailable()` — the explicit manual degrade call. -/
def markOtlpUnavailable (st : OtelState) : OtelState :=
  { st with isOtlpAvailable := false }

/-- `markOtlpAvailable()` — the explicit manual reset call. -/
def markOtlpAvailable (st : OtelState) : OtelState :=
  { st with isOtlpAvailable := true }

/-- `emitOtelLog`: returns `false` without attempting when the logger is
null or marked unavailable; otherwise attempts the emit, whose
success/throw outcome is the environment input `emitThrows`.  The catch
block logs the error and returns `false`; despite its own comment ("just
mark as temporarily unavailable") it does not call `markOtlpUnavailable`,
so the state comes back unchanged on every path.  The attribute payload
(`sanitizeAttributes` of the entry spread) goes to the external sink and
is not observable here. -/
def emitOtelLog (st : OtelState) (emitThrows : Bool) : Bool × OtelState :=
  if !st.hasLogger || !st.isOtlpAvailable then (false, st)
  else if emitThrows then (false, st)
  else (true, st)

/-- JS property write `o[k] = v`: updates an existing key in place,
appends a new key at the end. -/
def setKey : JsObj → Str → JsVal → JsObj
  | .nil, k, v => .cons k v .nil
  | .cons k0 v0 t, k, v =>
    if k0 = k then .cons k0 v t else .cons k0 v0 (setKey t k v)

/-- `Object.assign(base, extra)`: assigns each entry of `extra` in order. -/
def objAssign (base : JsObj) : JsObj → JsObj
  | .nil => base
  | .cons k v t => objAssign (setKey base k v) t

/-- Rest pattern of a destructuring: the object without the listed keys. -/
def removeKeys (o : JsObj) (ks : List Str) : JsObj :=
  match o with
  | .nil => .nil
  | .cons k v t => if ks.contains k then removeKeys t ks else .cons k v (removeKeys t ks)

/-- JS property read, `undefined` when absent. -/
def jsGet (o : JsObj) (k : Str) : JsVal :=
  (o.find k).getD .undefined

/-- JS truthiness of a value. -/
def jsTruthy : JsVal → Bool
  | .undefined => false
  | .null => false
  | .bool b => b
  | .num n => n != 0
  | .str s => !s.isEmpty
  | .bigint n => n != 0
  | .arr _ => true
  | .obj _ => true

mutual
/-- JS string coercion, as a template literal performs it. -/
def coerceTemplate : JsVal → Str
  | .undefined => "undefined".toList
  | .null => "null".toList
  | .bool b => if b then "true".toList else "false".toList
  | .num n => (toString n).toList
  | .str s => s
  | .bigint n => (toString n).toList
  | .arr items => coerceArr items
  | .obj _ => "[object Object]".toList

/-- `Array.prototype.toString`: elements joined with `,`; `null` and
`undefined` elements contribute the empty string. -/
def coerceArr : JsArr → Str
  | .nil => []
  | .cons v t =>
    (match v with
     | .undefined => []
     | .null => []
     | v => coerceTemplate v) ++
    (match t with
     | .nil => []
     | .cons w u => ',' :: coerceArr (.cons w u))
end

/-- `String.prototype.toUpperCase` (character-wise). -/
def toUpper (s : Str) : Str := s.map Char.toUpper

/-- `String.prototype.padEnd(n)` with spaces. -/
def padEnd (s : Str) (n : Nat) : Str := s ++ List.replicate (n - s.length) ' '

/-- `if (x) entry[k] = x`: add an optional string field when it is truthy
(an absent or empty string contributes nothing). -/
def withOpt (entry : JsObj) (k : Str) (v : Option Str) : JsObj :=
  match v with
  | some t => if t.isEmpty then entry else setKey entry k (.str t)
  | none => entry

/-- The entry literal built first by `createLogEntry`. -/
def baseEntry (cfg : LoggerCfg) (now : Str) (level : LogLevel) (message : Str) : JsObj :=
  .cons ("timestamp".toList) (.str now)
    (.cons ("level".toList) (.str (levelStr level))
      (.cons ("message".toList) (.str message)
        (.cons ("service".toList) (.str cfg.serviceName)
          (.cons ("environment".toList) (.str cfg.environment) .nil))))

/-- The entry after the conditional `trace_id`/`span_id`/`context`
assignments, before metadata is merged. -/
def entryPre (cfg : LoggerCfg) (now : Str) (traceId spanId : Option Str)
    (level : LogLevel) (message : Str) : JsObj :=
  withOpt (withOpt (withOpt (baseEntry cfg now level message)
    ("trace_id".toList) traceId) ("span_id".toList) spanId) ("context".toList) cfg.context

/-- The masked metadata merged into the entry (empty when no metadata was
passed). -/
def metaObj (cfg : LoggerCfg) (meta : Option JsObj) : JsObj :=
  match meta with
  | some m => maskSensitiveData cfg.sensitiveFields m
  | none => .nil

/-- `StructuredLoggerService.createLogEntry`: the fixed base fields, then
`trace_id`/`span_id` when truthy, the logger context when set, and
finally `Object.assign` of the masked metadata (which can overwrite
earlier fields). -/
def createLogEntry (cfg : LoggerCfg) (now : Str) (traceId spanId : Option Str)
    (level : LogLevel) (message : Str) (meta : Option JsObj) : JsObj :=
  objAssign (entryPre cfg now traceId spanId level message) (metaObj cfg meta)

/-- The five keys destructured out of the entry by the development
formatter. -/
def destructuredKeys : List Str :=
  ["timestamp".toList, "level".toList, "message".toList, "context".toList,
   "trace_id".toList]

/-- `logLevel.toUpperCase()`: throws when the `level` field was
overwritten with a non-string. -/
def devLevelStr (v : JsVal) : Except Unit Str :=
  match v with
  | .str s => .ok (toUpper s)
  | _ => .error ()

/-- `trace_id ? \` (trace: ...)\` : ''` with `trace_id.substring(0, 8)`:
throws when `trace_id` is truthy but not a string. -/
def devTraceStr (v : JsVal) : Except Unit Str :=
  if jsTruthy v then
    match v with
    | .str s => .ok (" (trace: ".toList ++ (s.take 8 ++ "...)".toList))
    | _ => .error ()
  else .ok []

/-- `Object.keys(rest).length > 0 ? \` ${JSON.stringify(rest)}\` : ''`. -/
def devMetaStr (rest : JsObj) : Except Unit Str :=
  if 0 < rest.keys.length then
    match jsonStringify (.obj rest) with
    | .ok s => .ok (' ' :: s)
    | .error e => .error e
  else .ok []

/-- `context ? \`[${context}] \` : ''`. -/
def devContextStr (v : JsVal) : Str :=
  if jsTruthy v then '[' :: (coerceTemplate v ++ (']' :: [' '])) else []

/-- `StructuredLoggerService.writeToConsole`: one formatted line.  In the
`development` environment the readable format (level uppercased and
padded, optional `[context]`, the message, an abbreviated trace id, the
remaining fields as JSON); otherwise `JSON.stringify` of the whole entry.
`.error ()` is a thrown `TypeError` (`toUpperCase`/`substring` on a
non-string after metadata overrode a reserved field) or a
`JSON.stringify` failure. -/
def writeToConsole (cfg : LoggerCfg) (entry : JsObj) : Except Unit Str :=
  if cfg.environment = "development".toList then
    match devLevelStr (jsGet entry ("level".toList)) with
    | .error e => .error e
    | .ok lvlUpper =>
      match devTraceStr (jsGet entry ("trace_id".toList)) with
      | .error e => .error e
      | .ok traceStr =>
        match devMetaStr (removeKeys entry destructuredKeys) with
        | .error e => .error e
        | .ok metaStr =>
          .ok (coerceTemplate (jsGet entry ("timestamp".toList)) ++
            (' ' :: (padEnd lvlUpper 5 ++
              (' ' :: (devContextStr (jsGet entry ("context".toList)) ++
                (coerceTemplate (jsGet entry ("message".toList)) ++
                  (traceStr ++ metaStr)))))))
  else
    jsonStringify (.obj entry)

/-- Result of one `writeLog` call: the provider state afterwards, whether
a remote emit was attempted, whether it reported success, and the console
line (if any; `Except` because a hostile entry can make the formatter
throw). -/
structure WriteLogResult where
  state : OtelState
  otlpAttempted : Bool
  otlpSuccess : Bool
  console : Option (Except Unit Str)

/-- `StructuredLoggerService.writeLog`: level filter, entry construction,
remote attempt when enabled and the provider is available, console write
when the console sink is enabled or the remote emit did not succeed. -/
def writeLog (cfg : LoggerCfg) (st : OtelState) (emitThrows : Bool) (now : Str)
    (traceId spanId : Option Str) (level : LogLevel) (message : Str)
    (meta : Option JsObj) : WriteLogResult :=
  if LOG_LEVEL_PRIORITY level < LOG_LEVEL_PRIORITY cfg.logLevel then
    ⟨st, false, false, none⟩
  else
    let entry := createLogEntry cfg now traceId spanId level message meta
    let attempted := cfg.enableOtlpLogs && isOtelLoggerAvailable st
    let emitted := if attempted then emitOtelLog st emitThrows else (false, st)
    let console :=
      if cfg.enableConsoleLogs || (!emitted.1 && cfg.enableOtlpLogs) then
        some (writeToConsole cfg entry)
      else none
    ⟨emitted.2, attempted, emitted.1, console⟩

/-- A logger configured with the remote sink enabled and the console sink
disabled (the configuration under which the degrade behavior is
observable). -/
def otlpOnlyCfg : LoggerCfg :=
  ⟨"svc".toList, "development".toList, .info, DEFAULT_SENSITIVE_FIELDS, true, false, none⟩

/-- C1 (behavior of the code at the claim's failing input): `emitOtelLog`
returns its state unchanged on every path — in particular a throwing
export does NOT set the Degrade State to DEGRADED (first conjunct, and
concretely conjuncts 2–4: the export is attempted, fails, and
`isOtlpAvailable` is still true) — so the next log call attempts the
remote export again instead of skipping it (conjunct 5), while the log
call still falls back to the console (conjunct 6).  The parts of the
claim the code does satisfy: once the state is marked unavailable by the
explicit `markOtlpUnavailable` call, a log call skips the remote attempt
entirely, falls back to console, and leaves the state DEGRADED (conjuncts
7–9), and the explicit `markOtlpAvailable` reset restores AVAILABLE
(conjunct 10). -/
theorem emitOtelLog_no_degrade_on_throw :
    (∀ (st : OtelState) (emitThrows : Bool), (emitOtelLog st emitThrows).2 = st)
  ∧ (writeLog otlpOnlyCfg ⟨true, true⟩ true ("T".toList) none none .info ("m".toList)
      none).otlpAttempted = true
  ∧ (writeLog otlpOnlyCfg ⟨true, true⟩ true ("T".toList) none none .info ("m".toList)
      none).otlpSuccess = false
  ∧ (writeLog otlpOnlyCfg ⟨true, true⟩ true ("T".toList) none none .info ("m".toList)
      none).state.isOtlpAvailable = true
  ∧ (writeLog otlpOnlyCfg
      (writeLog otlpOnlyCfg ⟨true, true⟩ true ("T".toList) none none .info ("m".toList)
        none).state
      false ("T".toList) none none .info ("m".toList) none).otlpAttempted = true
  ∧ (writeLog otlpOnlyCfg ⟨true, true⟩ true ("T".toList) none none .info ("m".toList)
      none).console.isSome = true
  ∧ (writeLog otlpOnlyCfg (markOtlpUnavailable ⟨true, true⟩) false ("T".toList) none none
      .info ("m".toList) none).otlpAttempted = false
  ∧ (writeLog otlpOnlyCfg (markOtlpUnavailable ⟨true, true⟩) false ("T".toList) none none
      .info ("m".toList) none).console.isSome = true
  ∧ (writeLog otlpOnlyCfg (markOtlpUnavailable ⟨true, true⟩) false ("T".toList) none none
      .info ("m".toList) none).state.isOtlpAvailable = false
  ∧ (markOtlpAvailable (markOtlpUnavailable ⟨true, true⟩)).isOtlpAvailable = true := by
  refine ⟨?_, rfl, rfl, rfl, rfl, rfl, rfl, rfl, rfl, rfl⟩
  intro st e
  rcases st with ⟨hl, av⟩
  cases hl <;> cases av <;> cases e <;> rfl

theorem setKey_find_eq : ∀ (o : JsObj) (k : Str) (v : JsVal),
    (setKey o k v).find k = some v
  | .nil, k, v => by simp [setKey, JsObj.find]
  | .cons k0 v0 t, k, v => by
    by_cases h : k0 = k
    · simp [setKey, h, JsObj.find]
    · simp [setKey, h, JsObj.find, setKey_find_eq t k v]

theorem setKey_find_ne : ∀ (o : JsObj) (k : Str) (v : JsVal) (q : Str), q ≠ k →
    (setKey o k v).find q = o.find q
  | .nil, k, v, q, h => by simp [setKey, JsObj.find, Ne.symm h]
  | .cons k0 v0 t, k, v, q, h => by
    by_cases h0 : k0 = k
    · subst h0
      simp [setKey, JsObj.find, Ne.symm h]
    · simp only [setKey, if_neg h0]
      by_cases hq : k0 = q
      · subst hq
        simp [JsObj.find]
      · simp [JsObj.find, hq, setKey_find_ne t k v q h]

theorem objAssign_find_none : ∀ (e b : JsObj) (q : Str), e.find q = none →
    (objAssign b e).find q = b.find q
  | .nil, b, q, _ => rfl
  | .cons k v t, b, q, h => by
    simp only [JsObj.find] at h
    by_cases hk : k = q
    · simp [hk] at h
    · simp only [objAssign]
      rw [objAssign_find_none t (setKey b k v) q (by simpa [hk] using h)]
      exact setKey_find_ne b k v q (fun hh => hk hh.symm)

theorem oClean_setKey : ∀ (o : JsObj) (k : Str) (v : JsVal), oClean o = true →
    vClean v = true → oClean (setKey o k v) = true
  | .nil, k, v, _, hv => by simp [setKey, oClean, hv]
  | .cons k0 v0 t, k, v, ho, hv => by
    simp only [oClean, Bool.and_eq_true] at ho
    by_cases h : k0 = k
    · simp [setKey, h, oClean, hv, ho.2]
    · simp [setKey, h, oClean, ho.1, oClean_setKey t k v ho.2 hv]

theorem oClean_objAssign : ∀ (e b : JsObj), oClean b = true → oClean e = true →
    oClean (objAssign b e) = true
  | .nil, b, hb, _ => by simpa [objAssign] using hb
  | .cons k v t, b, hb, he => by
    simp only [oClean, Bool.and_eq_true] at he
    simp only [objAssign]
    exact oClean_objAssign t (setKey b k v) (oClean_setKey b k v hb he.1) he.2

theorem oClean_removeKeys : ∀ (o : JsObj) (ks : List Str), oClean o = true →
    oClean (removeKeys o ks) = true
  | .nil, ks, _ => by simp [removeKeys, oClean]
  | .cons k v t, ks, ho => by
    simp only [oClean, Bool.and_eq_true] at ho
    by_cases h : k ∈ ks
    · simp [removeKeys, h, oClean_removeKeys t ks ho.2]
    · simp [removeKeys, h, oClean, ho.1, oClean_removeKeys t ks ho.2]

theorem jsonStringifyArr_cons_undefined (t : JsArr) :
    jsonStringifyArr (.cons .undefined t) =
      match jsonStringifyArr t with
      | .error e => .error e
      | .ok rest => .ok ("null".toList :: rest) := rfl

theorem jsonStringifyArr_cons_ne_undefined (v : JsVal) (t : JsArr)
    (hv : v ≠ .undefined) :
    jsonStringifyArr (.cons v t) =
      match jsonStringify v with
      | .error e => .error e
      | .ok s =>
        match jsonStringifyArr t with
        | .error e => .error e
        | .ok rest => .ok (s :: rest) := by
  cases v <;> first | (exact absurd rfl hv) | rfl

theorem jsonStringifyObj_cons_ne_undefined (k : Str) (v : JsVal) (t : JsObj)
    (hv : v ≠ .undefined) :
    jsonStringifyObj (.cons k v t) =
      match jsonStringify v with
      | .error e => .error e
      | .ok s =>
        match jsonStringifyObj t with
        | .error e => .error e
        | .ok rest => .ok ((quoteJson k ++ (':' :: s)) :: rest) := by
  cases v <;> first | (exact absurd rfl hv) | rfl

mutual
theorem jsonStringify_clean : ∀ v : JsVal, vClean v = true →
    ∃ s, jsonStringify v = .ok s
  | .undefined, h => by simp [vClean] at h
  | .null, _ => ⟨_, rfl⟩
  | .bool b, _ => ⟨_, rfl⟩
  | .num n, _ => ⟨_, rfl⟩
  | .str s, _ => ⟨_, rfl⟩
  | .bigint _, h => by simp [vClean] at h
  | .arr items, h => by
    obtain ⟨ps, hps⟩ := jsonStringifyArr_clean items (by simpa [vClean] using h)
    exact ⟨'[' :: (joinComma ps ++ [']']), by simp [jsonStringify, hps]⟩
  | .obj entries, h => by
    obtain ⟨ps, hps⟩ := jsonStringifyObj_clean entries (by simpa [vClean] using h)
    exact ⟨'\x7b' :: (joinComma ps ++ ['\x7d']), by simp [jsonStringify, hps]⟩

theorem jsonStringifyArr_clean : ∀ l : JsArr, aClean l = true →
    ∃ ps, jsonStringifyArr l = .ok ps
  | .nil, _ => ⟨[], rfl⟩
  | .cons v t, h => by
    simp only [aClean, Bool.and_eq_true] at h
    obtain ⟨ps, hps⟩ := jsonStringifyArr_clean t h.2
    by_cases hv : v = .undefined
    · subst hv
      exact ⟨"null".toList :: ps, by rw [jsonStringifyArr_cons_undefined, hps]⟩
    · obtain ⟨s, hs⟩ := jsonStringify_clean v h.1
      exact ⟨s :: ps, by rw [jsonStringifyArr_cons_ne_undefined v t hv, hs, hps]⟩

theorem jsonStringifyObj_clean : ∀ o : JsObj, oClean o = true →
    ∃ ps, jsonStringifyObj o = .ok ps
  | .nil, _ => ⟨[], rfl⟩
  | .cons k v t, h => by
    simp only [oClean, Bool.and_eq_true] at h
    obtain ⟨ps, hps⟩ := jsonStringifyObj_clean t h.2
    by_cases hv : v = .undefined
    · subst hv
      exact ⟨ps,
        by rw [show jsonStringifyObj (.cons k .undefined t) = jsonStringifyObj t from rfl,
          hps]⟩
    · obtain ⟨s, hs⟩ := jsonStringify_clean v h.1
      exact ⟨(quoteJson k ++ (':' :: s)) :: ps,
        by rw [jsonStringifyObj_cons_ne_undefined k v t hv, hs, hps]⟩
end

theorem joinComma_mem : ∀ (parts : List Str) (x : Str), x ∈ parts →
    ∃ p t, joinComma parts = p ++ x ++ t
  | [], x, h => by simp at h
  | [y], x, h => by
    simp at h
    subst h
    exact ⟨[], [], by simp [joinComma]⟩
  | y :: z :: parts, x, h => by
    rcases List.mem_cons.mp h with rfl | h2
    · exact ⟨[], ',' :: joinComma (z :: parts), by simp [joinComma]⟩
    · obtain ⟨p, t, hp⟩ := joinComma_mem (z :: parts) x h2
      refine ⟨y ++ ',' :: p, t, ?_⟩
      simp [joinComma, hp]

theorem jsonStringifyObj_mem : ∀ (o : JsObj) (parts : List Str) (q w : Str),
    jsonStringifyObj o = .ok parts → o.find q = some (.str w) →
    (quoteJson q ++ (':' :: quoteJson w)) ∈ parts
  | .nil, parts, q, w, hp, hf => by simp [JsObj.find] at hf
  | .cons k v t, parts, q, w, hp, hf => by
    simp only [JsObj.find] at hf
    by_cases hk : k = q
    · subst hk
      rw [if_pos rfl] at hf
      have hvv : v = .str w := Option.some.inj hf
      subst hvv
      rw [jsonStringifyObj_cons_ne_undefined k (.str w) t (by intro hh; cases hh)] at hp
      simp only [jsonStringify] at hp
      cases htt : jsonStringifyObj t with
      | error e => rw [htt] at hp; simp at hp
      | ok rest =>
        rw [htt] at hp
        simp only [Except.ok.injEq] at hp
        rw [← hp]
        exact List.mem_cons_self _ _
    · rw [if_neg hk] at hf
      by_cases hv : v = .undefined
      · subst hv
        have hstep : jsonStringifyObj (.cons k .undefined t) = jsonStringifyObj t := rfl
        rw [hstep] at hp
        exact jsonStringifyObj_mem t parts q w hp hf
      · rw [jsonStringifyObj_cons_ne_undefined k v t hv] at hp
        cases hsv : jsonStringify v with
        | error e => rw [hsv] at hp; simp at hp
        | ok s =>
          rw [hsv] at hp
          cases htt : jsonStringifyObj t with
          | error e => rw [htt] at hp; simp at hp
          | ok rest =>
            rw [htt] at hp
            simp only [Except.ok.injEq] at hp
            rw [← hp]
            exact List.mem_cons_of_mem _ (jsonStringifyObj_mem t rest q w htt hf)

theorem withOpt_find_ne (e : JsObj) (k : Str) (v : Option Str) (q : Str) (h : q ≠ k) :
    (withOpt e k v).find q = e.find q := by
  cases v with
  | none => rfl
  | some t =>
    simp only [withOpt]
    split
    · rfl
    · exact setKey_find_ne e k (.str t) q h

theorem oClean_withOpt (e : JsObj) (k : Str) (v : Option Str) (h : oClean e = true) :
    oClean (withOpt e k v) = true := by
  cases v with
  | none => exact h
  | some t =>
    simp only [withOpt]
    split
    · exact h
    · exact oClean_setKey e k (.str t) h rfl

theorem baseEntry_find_message (cfg : LoggerCfg) (now : Str) (level : LogLevel)
    (message : Str) :
    (baseEntry cfg now level message).find ("message".toList) = some (.str message) := by
  simp +decide [baseEntry, JsObj.find]

theorem baseEntry_find_level (cfg : LoggerCfg) (now : Str) (level : LogLevel)
    (message : Str) :
    (baseEntry cfg now level message).find ("level".toList) =
      some (.str (levelStr level)) := by
  simp +decide [baseEntry, JsObj.find]

theorem baseEntry_find_trace (cfg : LoggerCfg) (now : Str) (level : LogLevel)
    (message : Str) :
    (baseEntry cfg now level message).find ("trace_id".toList) = none := by
  simp +decide [baseEntry, JsObj.find]

theorem oClean_baseEntry (cfg : LoggerCfg) (now : Str) (level : LogLevel)
    (message : Str) : oClean (baseEntry cfg now level message) = true := by
  simp [baseEntry, oClean, vClean]

theorem entryPre_find_message (cfg : LoggerCfg) (now : Str) (traceId spanId : Option Str)
    (level : LogLevel) (message : Str) :
    (entryPre cfg now traceId spanId level message).find ("message".toList) =
      some (.str message) := by
  unfold entryPre
  rw [withOpt_find_ne _ _ _ _ (by decide), withOpt_find_ne _ _ _ _ (by decide),
    withOpt_find_ne _ _ _ _ (by decide)]
  exact baseEntry_find_message cfg now level message

theorem entryPre_find_level (cfg : LoggerCfg) (now : Str) (traceId spanId : Option Str)
    (level : LogLevel) (message : Str) :
    (entryPre cfg now traceId spanId level message).find ("level".toList) =
      some (.str (levelStr level)) := by
  unfold entryPre
  rw [withOpt_find_ne _ _ _ _ (by decide), withOpt_find_ne _ _ _ _ (by decide),
    withOpt_find_ne _ _ _ _ (by decide)]
  exact baseEntry_find_level cfg now level message

theorem entryPre_find_trace (cfg : LoggerCfg) (now : Str) (traceId spanId : Option Str)
    (level : LogLevel) (message : Str) :
    (entryPre cfg now traceId spanId level message).find ("trace_id".toList) = none ∨
      ∃ t, (entryPre cfg now traceId spanId level message).find ("trace_id".toList) =
        some (.str t) := by
  unfold entryPre
  rw [withOpt_find_ne _ _ _ _ (by decide), withOpt_find_ne _ _ _ _ (by decide)]
  cases traceId with
  | none => exact Or.inl (baseEntry_find_trace cfg now level message)
  | some t =>
    simp only [withOpt]
    split
    · exact Or.inl (baseEntry_find_trace cfg now level message)
    · exact Or.inr ⟨t, setKey_find_eq _ _ _⟩

theorem oClean_entryPre (cfg : LoggerCfg) (now : Str) (traceId spanId : Option Str)
    (level : LogLevel) (message : Str) :
    oClean (entryPre cfg now traceId spanId level message) = true := by
  unfold entryPre
  exact oClean_withOpt _ _ _ (oClean_withOpt _ _ _ (oClean_withOpt _ _ _
    (oClean_baseEntry cfg now level message)))

theorem writeToConsole_ok_contains (cfg : LoggerCfg) (entry : JsObj) (message : Str)
    (hmsg : entry.find ("message".toList) = some (.str message))
    (hlvl : ∃ ls, entry.find ("level".toList) = some (.str ls))
    (htr : entry.find ("trace_id".toList) = none ∨
        ∃ t, entry.find ("trace_id".toList) = some (.str t))
    (hclean : oClean entry = true)
    (hesc : escapeJson message = message) :
    ∃ line, writeToConsole cfg entry = .ok line ∧ subList message line = true := by
  by_cases hdev : cfg.environment = "development".toList
  · obtain ⟨ls, hls⟩ := hlvl
    have hlev : devLevelStr (jsGet entry ("level".toList)) = .ok (toUpper ls) := by
      simp only [jsGet]
      rw [hls]
      rfl
    have htrace : ∃ ts, devTraceStr (jsGet entry ("trace_id".toList)) = .ok ts := by
      rcases htr with h | ⟨t, h⟩
      · exact ⟨[], by simp only [jsGet]; rw [h]; rfl⟩
      · have hok : ∃ ts, devTraceStr (.str t) = .ok ts := by
          simp only [devTraceStr]
          by_cases hh : jsTruthy (.str t) = true
          · rw [if_pos hh]
            exact ⟨_, rfl⟩
          · rw [if_neg hh]
            exact ⟨[], rfl⟩
        obtain ⟨ts, hts⟩ := hok
        exact ⟨ts, by simp only [jsGet]; rw [h]; exact hts⟩
    obtain ⟨ts, hts⟩ := htrace
    have hrest := oClean_removeKeys entry destructuredKeys hclean
    have hmeta : ∃ ms, devMetaStr (removeKeys entry destructuredKeys) = .ok ms := by
      simp only [devMetaStr]
      by_cases hlen : 0 < (removeKeys entry destructuredKeys).keys.length
      · obtain ⟨ps, hps⟩ := jsonStringifyObj_clean _ hrest
        refine ⟨' ' :: ('\x7b' :: (joinComma ps ++ ['\x7d'])), ?_⟩
        rw [if_pos hlen, show jsonStringify (.obj (removeKeys entry destructuredKeys)) =
          .ok ('\x7b' :: (joinComma ps ++ ['\x7d'])) from by simp [jsonStringify, hps]]
      · exact ⟨[], by rw [if_neg hlen]⟩
    obtain ⟨ms, hms⟩ := hmeta
    have hmsgv : jsGet entry ("message".toList) = .str message := by
      simp only [jsGet]
      rw [hmsg]
      rfl
    refine ⟨coerceTemplate (jsGet entry ("timestamp".toList)) ++
      (' ' :: (padEnd (toUpper ls) 5 ++
        (' ' :: (devContextStr (jsGet entry ("context".toList)) ++
          (coerceTemplate (jsGet entry ("message".toList)) ++ (ts ++ ms)))))), ?_, ?_⟩
    · unfold writeToConsole
      rw [if_pos hdev, hlev, hts, hms]
    · rw [hmsgv, subList_iff]
      exact ⟨coerceTemplate (jsGet entry ("timestamp".toList)) ++
        (' ' :: (padEnd (toUpper ls) 5 ++
          (' ' :: devContextStr (jsGet entry ("context".toList))))), ts ++ ms,
        by simp [coerceTemplate]⟩
  · obtain ⟨ps, hps⟩ := jsonStringifyObj_clean entry hclean
    have hmem := jsonStringifyObj_mem entry ps ("message".toList) message hps hmsg
    obtain ⟨p, t, hjoin⟩ := joinComma_mem ps _ hmem
    refine ⟨'\x7b' :: (joinComma ps ++ ['\x7d']), ?_, ?_⟩
    · unfold writeToConsole
      rw [if_neg hdev]
      simp [jsonStringify, hps]
    · rw [subList_iff]
      refine ⟨'\x7b' :: (p ++ (quoteJson ("message".toList) ++ [':', '"'])),
        '"' :: (t ++ ['\x7d']), ?_⟩
      rw [hjoin]
      simp [quoteJson, hesc]

theorem emitOtelLog_fst (st : OtelState) (e : Bool) :
    (emitOtelLog st e).1 = (isOtelLoggerAvailable st && !e) := by
  rcases st with ⟨hl, av⟩
  cases hl <;> cases av <;> cases e <;> rfl

/-- C5 counterexample: a log call at level info, remote sink enabled and
console sink disabled, whose remote emit throws, and whose metadata
contains a key `message`: the fallback console line is written, but it
does not contain the original message "hello" — `Object.assign` let the
metadata overwrite the entry's `message` field. -/
theorem writeLog_message_override_counterexample :
    (writeLog otlpOnlyCfg ⟨true, true⟩ true ("T".toList) none none .info ("hello".toList)
        (some (.cons ("message".toList) (.str ("bye".toList)) .nil))).console.map
      (Except.map (fun line => subList ("hello".toList) line)) = some (.ok false) := rfl

/-- C5 amended: for every log call at or above the configured minimum
level — provided the masked metadata is serializable (no BigInt-like or
`undefined` members) and does not overwrite the reserved `message`,
`level` or `trace_id` entry fields, and the message needs no JSON
escaping — the console sink receives a line exactly when the console sink
is enabled OR (the remote sink is enabled and the remote emit did not
succeed); the remote emit succeeds exactly when the remote sink is
enabled, the provider is available, and the export does not throw; and
whenever a console line is written it is a single successfully formatted
line that contains the original message (in both the development and the
JSON formats). -/
theorem writeLog_claim (cfg : LoggerCfg) (st : OtelState) (emitThrows : Bool)
    (now : Str) (traceId spanId : Option Str) (level : LogLevel) (message : Str)
    (meta : Option JsObj)
    (hlev : LOG_LEVEL_PRIORITY cfg.logLevel ≤ LOG_LEVEL_PRIORITY level)
    (hclean : oClean (metaObj cfg meta) = true)
    (hmsg : (metaObj cfg meta).find ("message".toList) = none)
    (hlvl : (metaObj cfg meta).find ("level".toList) = none)
    (htr : (metaObj cfg meta).find ("trace_id".toList) = none)
    (hesc : escapeJson message = message) :
    ((writeLog cfg st emitThrows now traceId spanId level message meta).console.isSome =
        (cfg.enableConsoleLogs ||
          (!(writeLog cfg st emitThrows now traceId spanId level message meta).otlpSuccess &&
            cfg.enableOtlpLogs)))
  ∧ ((writeLog cfg st emitThrows now traceId spanId level message meta).otlpSuccess =
        (cfg.enableOtlpLogs && (isOtelLoggerAvailable st && !emitThrows)))
  ∧ ∀ ex, (writeLog cfg st emitThrows now traceId spanId level message meta).console =
        some ex → ∃ line, ex = .ok line ∧ subList message line = true := by
  have hnot : ¬ LOG_LEVEL_PRIORITY level < LOG_LEVEL_PRIORITY cfg.logLevel := by omega
  have e1 : (createLogEntry cfg now traceId spanId level message meta).find
      ("message".toList) = some (.str message) := by
    unfold createLogEntry
    rw [objAssign_find_none _ _ _ hmsg]
    exact entryPre_find_message cfg now traceId spanId level message
  have e2 : ∃ ls, (createLogEntry cfg now traceId spanId level message meta).find
      ("level".toList) = some (.str ls) := by
    refine ⟨levelStr level, ?_⟩
    unfold createLogEntry
    rw [objAssign_find_none _ _ _ hlvl]
    exact entryPre_find_level cfg now traceId spanId level message
  have e3 : (createLogEntry cfg now traceId spanId level message meta).find
        ("trace_id".toList) = none ∨
      ∃ t, (createLogEntry cfg now traceId spanId level message meta).find
        ("trace_id".toList) = some (.str t) := by
    unfold createLogEntry
    rw [objAssign_find_none _ _ _ htr]
    exact entryPre_find_trace cfg now traceId spanId level message
  have e4 : oClean (createLogEntry cfg now traceId spanId level message meta) = true := by
    unfold createLogEntry
    exact oClean_objAssign _ _ (oClean_entryPre cfg now traceId spanId level message) hclean
  have hwc := writeToConsole_ok_contains cfg _ message e1 e2 e3 e4 hesc
  simp only [writeLog, if_neg hnot]
  refine ⟨?_, ?_, ?_⟩
  · cases hcond : (cfg.enableConsoleLogs ||
      (!(if cfg.enableOtlpLogs && isOtelLoggerAvailable st then emitOtelLog st emitThrows
         else (false, st)).1 && cfg.enableOtlpLogs)) <;> simp [hcond]
  · cases hB : cfg.enableOtlpLogs <;> cases hA : isOtelLoggerAvailable st <;>
      simp [hB, hA, emitOtelLog_fst]
  · intro ex hex
    by_cases hC : (cfg.enableConsoleLogs ||
      (!(if cfg.enableOtlpLogs && isOtelLoggerAvailable st then emitOtelLog st emitThrows
         else (false, st)).1 && cfg.enableOtlpLogs)) = true
    · rw [if_pos hC] at hex
      obtain ⟨line, h1, h2⟩ := hwc
      exact ⟨line, by rw [← Option.some.inj hex, h1], h2⟩
    · rw [if_neg hC] at hex
      cases hex

theorem writeLog_claim_witness :
    ∃ line, (writeLog otlpOnlyCfg ⟨true, true⟩ true ("T".toList) none none .info
        ("hello".toList) none).console = some (.ok line) ∧
      subList ("hello".toList) line = true := by
  have h := writeLog_claim otlpOnlyCfg ⟨true, true⟩ true ("T".toList) none none .info
    ("hello".toList) none (by decide) (by decide) rfl rfl rfl (by decide)
  obtain ⟨line, h1, h2⟩ := h.2.2 (writeToConsole otlpOnlyCfg
    (createLogEntry otlpOnlyCfg ("T".toList) none none .info ("hello".toList) none)) rfl
  refine ⟨line, ?_, h2⟩
  rw [show (writeLog otlpOnlyCfg ⟨true, true⟩ true ("T".toList) none none .info
    ("hello".toList) none).console = some (writeToConsole otlpOnlyCfg
    (createLogEntry otlpOnlyCfg ("T".toList) none none .info ("hello".toList) none))
    from rfl, h1]

/-! ## RabbitMQ publish wrapper (`rabbitmq-publish.interceptor.ts`,
prototype-patch variant included) -/

/-- The producer span's context, as the propagator reads it.  `traceState`
is carried into `tracestate` when present. -/
structure SpanCtx where
  traceId : Str
  spanId : Str
  traceState : Option Str

/-- The W3C `traceparent` header value derived from the span
(`version-traceid-spanid-flags`; the sampled flag of a recording span). -/
def traceparentOf (span : SpanCtx) : Str :=
  "00-".toList ++ (span.traceId ++ ('-' :: (span.spanId ++ "-01".toList)))

/-- `options?.headers || {}`: the caller-supplied header map (empty when
no options or no header map were passed; a non-object `headers` value is
outside the model). -/
def callerHeaders (options : Option JsObj) : JsObj :=
  match options with
  | some o =>
    match o.find ("headers".toList) with
    | some (.obj h) => h
    | _ => .nil
  | none => .nil

/-- `propagation.inject(activeContext, headers)` with the W3C trace
context propagator and the producer span active: sets `traceparent`, and
`tracestate` when the span carries one. -/
def injectContext (span : SpanCtx) (carrier : JsObj) : JsObj :=
  let c := setKey carrier ("traceparent".toList) (.str (traceparentOf span))
  match span.traceState with
  | some ts => setKey c ("tracestate".toList) (.str ts)
  | none => c

/-- The call the wrapper makes to the original `publish`. -/
structure PublishCall (M : Type) where
  exchange : Str
  routingKey : Str
  message : M
  options : JsObj

/-- The patched `publish` body up to the call of the original method:
copies the caller's headers, injects the producer span's context into
them, and forwards exchange, routing key and message unchanged with
`{ ...options, headers }`. -/
def wrappedPublishCall {M : Type} (span : SpanCtx) (exchange routingKey : Str)
    (message : M) (options : Option JsObj) : PublishCall M :=
  ⟨exchange, routingKey, message,
    setKey (options.getD .nil) ("headers".toList)
      (.obj (injectContext span (callerHeaders options)))⟩

/-- Span observations made by a hook on one unit of work. -/
inductive SpanStatus where
  | unset
  | ok
  | error
deriving DecidableEq

structure SpanEnd where
  status : SpanStatus
  ended : Bool

/-- The `try`/`catch`/`finally` around the original publish: status OK on
success, status ERROR on failure, the span ended on every path, and the
result or thrown value propagated unchanged. -/
def wrappedPublishOutcome {E A : Type} (result : Except E A) : Except E A × SpanEnd :=
  match result with
  | .ok a => (.ok a, ⟨.ok, true⟩)
  | .error e => (.error e, ⟨.error, true⟩)

/-! ## Error interceptor and WebSocket trace hook
(`observability-error.interceptor.ts`, `ws-trace.interceptor.ts`) -/

/-- NestJS execution-context types as the interceptor reads them. -/
inductive NestCtxType where
  | http
  | rmq
  | rpc
  | ws
  | other

/-- The mapping to the context label expected by `MetricsService`. -/
def metricsContextOf : NestCtxType → Str
  | .http => "http".toList
  | .rmq => "rabbitmq".toList
  | .rpc => "rabbitmq".toList
  | .ws => "websocket".toList
  | .other => "other".toList

/-- `String(error.response?.status || error.code || 'unknown')` for an
Axios-shaped error (`0` and the empty string are falsy). -/
def axiosCodeStr (e : JsErr) : Str :=
  match e.responseStatus with
  | some n =>
    if n == 0 then
      match e.code with
      | some c => if c.isEmpty then "unknown".toList else c
      | none => "unknown".toList
    else (toString n).toList
  | none =>
    match e.code with
    | some c => if c.isEmpty then "unknown".toList else c
    | none => "unknown".toList

/-- The error-code extraction of `recordErrorMetric`. -/
def interceptorErrorCode (e : JsErr) : Option Str :=
  if isPrismaKnownRequestError e then e.code
  else if isAxiosError e then some (axiosCodeStr e)
  else none

/-- `ObservabilityErrorInterceptor.intercept`: on success the stream
passes through untouched; on failure the error is classified, the error
metric recorded (the structured log and span annotation are further
observation-only effects), and the very same error re-raised via
`throwError(() => error)`. -/
def interceptObs {A : Type} (st : MetricsState) (ctx : NestCtxType)
    (outcome : Except JsErr A) : Except JsErr A × MetricsState :=
  match outcome with
  | .ok a => (.ok a, st)
  | .error e =>
    (.error e,
      recordError st ⟨errorTypeStr (classifyError e), metricsContextOf ctx,
        interceptorErrorCode e⟩)

/-- `WebSocketTraceInterceptor`'s `tap`/`catchError` pair: success ends
the span OK and records a success metric; failure ends the span ERROR,
records a failure metric, and re-throws the very same error. -/
def wsIntercept {E A : Type} (st : MetricsState) (handlerName : Str) (d : ℚ)
    (outcome : Except E A) : Except E A × MetricsState × SpanEnd :=
  match outcome with
  | .ok a => (.ok a, recordWsEvent st ⟨handlerName, true, some d⟩, ⟨.ok, true⟩)
  | .error e => (.error e, recordWsEvent st ⟨handlerName, false, some d⟩, ⟨.error, true⟩)

/-- C4: the wrapped broker publish forwards exchange, routing key and
message unchanged; the options passed to the original publish carry a
header map that is the caller's header map with the propagation context
injected; that map binds `traceparent` to the value derived from the
producer span started for this publish; every caller-supplied header key
is still present, with its value unchanged unless it is one of the
propagation keys; and when the caller passed no options at all the
outgoing options consist of exactly the injected header map. -/
theorem wrappedPublishCall_claim :
    (∀ (M : Type) (span : SpanCtx) (ex rk : Str) (msg : M) (opts : Option JsObj),
        (wrappedPublishCall span ex rk msg opts).exchange = ex
      ∧ (wrappedPublishCall span ex rk msg opts).routingKey = rk
      ∧ (wrappedPublishCall span ex rk msg opts).message = msg
      ∧ (wrappedPublishCall span ex rk msg opts).options.find ("headers".toList) =
          some (.obj (injectContext span (callerHeaders opts)))
      ∧ (injectContext span (callerHeaders opts)).find ("traceparent".toList) =
          some (.str (traceparentOf span))
      ∧ (∀ k v, (callerHeaders opts).find k = some v →
          ∃ v', (injectContext span (callerHeaders opts)).find k = some v'
            ∧ (k ≠ "traceparent".toList → k ≠ "tracestate".toList → v' = v)))
  ∧ (∀ (M : Type) (span : SpanCtx) (ex rk : Str) (msg : M),
      span.traceState = none →
      (wrappedPublishCall (M := M) span ex rk msg none).options =
        .cons ("headers".toList)
          (.obj (.cons ("traceparent".toList) (.str (traceparentOf span)) .nil)) .nil) := by
  constructor
  · intro M span ex rk msg opts
    have htp : (injectContext span (callerHeaders opts)).find ("traceparent".toList) =
        some (.str (traceparentOf span)) := by
      cases hts : span.traceState with
      | none =>
        simp only [injectContext, hts]
        exact setKey_find_eq _ _ _
      | some ts =>
        simp only [injectContext, hts]
        rw [setKey_find_ne _ _ _ _ (by decide)]
        exact setKey_find_eq _ _ _
    refine ⟨rfl, rfl, rfl, ?_, htp, ?_⟩
    · simp only [wrappedPublishCall]
      exact setKey_find_eq _ _ _
    · intro k v hk
      by_cases h1 : k = "traceparent".toList
      · subst h1
        exact ⟨.str (traceparentOf span), htp, fun hc _ => absurd rfl hc⟩
      · by_cases h2 : k = "tracestate".toList
        · subst h2
          cases hts : span.traceState with
          | none =>
            refine ⟨v, ?_, fun _ _ => rfl⟩
            simp only [injectContext, hts]
            rw [setKey_find_ne _ _ _ _ h1]
            exact hk
          | some ts =>
            refine ⟨.str ts, ?_, fun _ hc => absurd rfl hc⟩
            simp only [injectContext, hts]
            exact setKey_find_eq _ _ _
        · refine ⟨v, ?_, fun _ _ => rfl⟩
          cases hts : span.traceState with
          | none =>
            simp only [injectContext, hts]
            rw [setKey_find_ne _ _ _ _ h1]
            exact hk
          | some ts =>
            simp only [injectContext, hts]
            rw [setKey_find_ne _ _ _ _ h2, setKey_find_ne _ _ _ _ h1]
            exact hk
  · intro M span ex rk msg hts
    simp [wrappedPublishCall, callerHeaders, injectContext, hts, setKey]

theorem wrappedPublishCall_claim_witness :
    ∃ v', (injectContext ⟨"0af7651916cd43dd8448eb211c80319c".toList,
        "b7ad6b7169203331".toList, none⟩
      (callerHeaders (some (.cons ("headers".toList)
        (.obj (.cons ("x-correlation".toList) (.str ("abc".toList)) .nil)) .nil)))).find
      ("x-correlation".toList) = some v' ∧ v' = .str ("abc".toList) := by
  have h := (wrappedPublishCall_claim.1 Nat
    ⟨"0af7651916cd43dd8448eb211c80319c".toList, "b7ad6b7169203331".toList, none⟩
    ("orders".toList) ("order.created".toList) 0
    (some (.cons ("headers".toList)
      (.obj (.cons ("x-correlation".toList) (.str ("abc".toList)) .nil)) .nil))).2.2.2.2.2
    ("x-correlation".toList) (.str ("abc".toList)) rfl
  obtain ⟨v', hv, hcond⟩ := h
  exact ⟨v', hv, hcond (by decide) (by decide)⟩

/-- C9: each failure path re-raises the very same value it observed
(stated as propagation of the whole outcome, success or failure
unchanged): the error interceptor passes the outcome through while — on
failure — recording the classified error metric (second conjunct, +1 on
the errors counter under the interceptor's label set); the wrapped
publish forwards the original result, always ends the span, and marks it
ERROR on the failure path; the WebSocket trace hook does the same and
additionally records the failure metric. -/
theorem rethrowUnchanged_claim :
    (∀ (A : Type) (st : MetricsState) (ctx : NestCtxType) (o : Except JsErr A),
        (interceptObs st ctx o).1 = o)
  ∧ (∀ (A : Type) (st : MetricsState) (ctx : NestCtxType) (e : JsErr),
        (interceptObs (A := A) st ctx (.error e)).2.errorsTotal
            ⟨errorTypeStr (classifyError e), metricsContextOf ctx,
              codeOrUnknown (interceptorErrorCode e)⟩ =
          st.errorsTotal
            ⟨errorTypeStr (classifyError e), metricsContextOf ctx,
              codeOrUnknown (interceptorErrorCode e)⟩ + 1)
  ∧ (∀ (E A : Type) (r : Except E A),
        (wrappedPublishOutcome r).1 = r ∧ (wrappedPublishOutcome r).2.ended = true
      ∧ ∀ e, r = .error e → (wrappedPublishOutcome r).2.status = .error)
  ∧ (∀ (E A : Type) (st : MetricsState) (hn : Str) (d : ℚ) (o : Except E A),
        (wsIntercept st hn d o).1 = o ∧ (wsIntercept st hn d o).2.2.ended = true
      ∧ ∀ e, o = .error e →
          (wsIntercept st hn d o).2.2.status = .error
        ∧ (wsIntercept st hn d o).2.1.wsErrorsTotal ⟨hn⟩ =
            st.wsErrorsTotal ⟨hn⟩ + 1) := by
  refine ⟨?_, ?_, ?_, ?_⟩
  · intro A st ctx o
    cases o <;> rfl
  · intro A st ctx e
    simp [interceptObs, recordError, bump]
  · intro E A r
    refine ⟨?_, ?_, ?_⟩
    · cases r <;> rfl
    · cases r <;> rfl
    · intro e he
      subst he
      rfl
  · intro E A st hn d o
    refine ⟨?_, ?_, ?_⟩
    · cases o <;> rfl
    · cases o <;> rfl
    · intro e he
      subst he
      exact ⟨rfl, by simp [wsIntercept, recordWsEvent, bump]⟩

theorem rethrowUnchanged_claim_witness :
    (wrappedPublishOutcome (E := JsErr) (A := Bool) (.error genericSample)).2.status =
      .error :=
  (rethrowUnchanged_claim.2.2.1 JsErr Bool (.error genericSample)).2.2 genericSample rfl
